import Mathlib

/-!
Shallow embedding of `crates/typst/src/foundations/element.rs`: the element
handle, its static metadata record, field-id lookup, capability dispatch,
the construct/set contracts, ordering, and the `Behave` interaction trait.
-/

/-- The identity of a Rust type (`std::any::TypeId`), modelled as an abstract tag. -/
abbrev TypeId := Nat

/-- An opaque pointer to a capability vtable (`*const ()`), modelled as an address. -/
abbrev VtablePtr := Nat

/-- A language code (`crate::text::Lang`), opaque to this module. -/
abbrev Lang := String

/-- A region code (`crate::text::Region`), opaque to this module. -/
abbrev Region := String

/-- The engine context threaded mutably through `construct` and `set`, opaque here. -/
structure Engine where
  state : Nat
deriving DecidableEq, Repr

/-- Type-erased content (`crate::foundations::Content`), opaque here. -/
structure Content where
  rep : Nat
deriving DecidableEq, Repr

/-- A style delta produced by a set rule (`crate::foundations::Styles`), opaque here. -/
structure Styles where
  rep : Nat
deriving DecidableEq, Repr

/-- A style chain (`crate::foundations::StyleChain`), opaque here. -/
structure StyleChain where
  rep : Nat
deriving DecidableEq, Repr

/-- A dynamic value (`crate::foundations::Value`), opaque here. -/
structure Value where
  rep : Nat
deriving DecidableEq, Repr

/-- A namespace of sub-definitions (`crate::foundations::Scope`), opaque here. -/
structure Scope where
  rep : Nat
deriving DecidableEq, Repr

/-- A parameter descriptor (`crate::foundations::ParamInfo`), opaque here. -/
structure ParamInfo where
  rep : Nat
deriving DecidableEq, Repr

/-- The diagnostic carried by the error side of a `SourceResult`. -/
structure SourceDiagnostic where
  message : String
deriving DecidableEq, Repr

/-- One argument of an argument list: optionally named, with a value. -/
structure Arg where
  argName : Option String
  value : Value
deriving DecidableEq, Repr

/-- Modelled from the spec: `Args` (`crate::foundations::Args`, not under `src/`) is
"an ordered, partially-consumable bag of positional and named values"; here the list
of still-unconsumed arguments. -/
structure Args where
  items : List Arg
deriving DecidableEq, Repr

/-- Modelled from the spec: `Args::finish` (not under `src/`) "fails if unconsumed
arguments remain", with an "unexpected argument" diagnostic. -/
def Args.finish (args : Args) : Except SourceDiagnostic Unit :=
  match args.items with
  | [] => Except.ok ()
  | _ :: _ => Except.error { message := "unexpected argument" }

/-- The static metadata record describing one native element kind
(`NativeElementData`). Rust `&mut` parameters become explicit state passing:
`construct` and `set` return the updated engine and the updated (partially
consumed) argument list next to their result. -/
structure NativeElementData where
  name : String
  title : String
  docs : String
  keywords : List String
  construct : Engine → Args → Except SourceDiagnostic (Content × Engine × Args)
  set : Engine → Args → Except SourceDiagnostic (Styles × Engine × Args)
  vtable : TypeId → Option VtablePtr
  field_id : String → Option Nat
  field_name : Nat → Option String
  local_name : Option (Lang → Option Region → String)
  scope : Scope
  params : List ParamInfo

/-- Modelled from the spec: `Static<NativeElementData>` (`crate::util`, not under
`src/`) is a copyable handle referencing exactly one process-static metadata
record, and "two handles are equal iff they reference the same record"; so the
handle carries the record's static address `ptr` next to the record it references,
and the derived equality compares the reference, i.e. the address. -/
structure Element where
  ptr : Nat
  data : NativeElementData

/-- The derived `PartialEq` on `Element`: equality of the `Static` reference. -/
def Element.beq (a b : Element) : Bool :=
  a.ptr == b.ptr

/-- `Element::name`. -/
def Element.name (e : Element) : String :=
  e.data.name

/-- `Element::title`. -/
def Element.title (e : Element) : String :=
  e.data.title

/-- `Element::field_id`: the reserved name "label" maps to 255 before the
per-kind lookup is consulted. -/
def Element.field_id (e : Element) (name : String) : Option Nat :=
  if name = "label" then some 255
  else e.data.field_id name

/-- `Element::field_name`: the reserved id 255 maps to "label" before the
per-kind lookup is consulted. -/
def Element.field_name (e : Element) (id : Nat) : Option String :=
  if id = 255 then some "label"
  else e.data.field_name id

/-- `Element::construct`: delegates to the kind's construct function. -/
def Element.construct (e : Element) (engine : Engine) (args : Args) :
    Except SourceDiagnostic (Content × Engine × Args) :=
  e.data.construct engine args

/-- `Element::set`: runs the kind's set function, then the argument list's
finish check, and returns the styles of the former. -/
def Element.set (e : Element) (engine : Engine) (args : Args) :
    Except SourceDiagnostic (Styles × Engine) :=
  match e.data.set engine args with
  | Except.error err => Except.error err
  | Except.ok (styles, engine2, args2) =>
    match args2.finish with
    | Except.error err => Except.error err
    | Except.ok _ => Except.ok (styles, engine2)

/-- `Element::can_type_id`: the capability lookup returns a non-absent pointer. -/
def Element.can_type_id (e : Element) (type_id : TypeId) : Bool :=
  (e.data.vtable type_id).isSome

/-- A capability type `C`, represented by its type identity `TypeId::of::<C>()`. -/
structure Capability where
  type_id : TypeId
deriving DecidableEq, Repr

/-- `Element::can::<C>()`: equals `can_type_id(TypeId::of::<C>())`. -/
def Element.can (e : Element) (c : Capability) : Bool :=
  e.can_type_id c.type_id

/-- `Element::vtable`: exposes the raw capability-lookup function. -/
def Element.vtable (e : Element) : TypeId → Option VtablePtr :=
  e.data.vtable

/-- `Element::local_name`: maps the optional per-kind localized-name function
over the language and region. -/
def Element.local_name (e : Element) (lang : Lang) (region : Option Region) :
    Option String :=
  e.data.local_name.map (fun f => f lang region)

/-- Byte-lexicographic comparison of character lists, as Rust's `str::cmp`
orders strings (pointwise by code unit, a proper prefix first). -/
def lexCmp : List Char → List Char → Ordering
  | [], [] => Ordering.eq
  | [], _ :: _ => Ordering.lt
  | _ :: _, [] => Ordering.gt
  | a :: xs, b :: ys =>
    if a.toNat < b.toNat then Ordering.lt
    else if b.toNat < a.toNat then Ordering.gt
    else lexCmp xs ys

/-- Lexicographic comparison of strings by their characters. -/
def strCmp (a b : String) : Ordering :=
  lexCmp a.data b.data

/-- `Ord for Element`: compares the names. -/
def Element.cmp (a b : Element) : Ordering :=
  strCmp a.name b.name

/-- `PartialOrd for Element`: always `Some(self.cmp(other))`. -/
def Element.partialCmp (a b : Element) : Option Ordering :=
  some (Element.cmp a b)

/-- How an element interacts with other elements in a stream (`Behaviour`). -/
inductive Behaviour where
  | Weak (level : Nat)
  | Supportive
  | Destructive
  | Ignorant
  | Invisible
deriving DecidableEq, Repr

/-- The `Behave` trait, as the record of its methods for one concrete instance:
the reported behaviour, and the `larger` tie-break predicate receiving the
previously retained weak element `(content, behaviour, styles)` and the
candidate's style chain. -/
structure Behave where
  behaviour : Behaviour
  larger : (Content × Behaviour × StyleChain) → StyleChain → Bool

/-- The default body of `Behave::larger`: never replace. -/
def defaultLarger : (Content × Behaviour × StyleChain) → StyleChain → Bool :=
  fun _ _ => false

/-- A `Behave` implementation that does not override `larger` keeps the
trait's default body. -/
def Behave.mkDefault (behaviour : Behaviour) : Behave :=
  { behaviour := behaviour, larger := defaultLarger }

/-- Modelled from the spec: the step of the weak-run merge pass (not under
`src/`) that decides whether a weak candidate replaces the currently retained
weak element: the numerically lowest level wins, and on a level tie the
candidate replaces the retained element only when its `larger(prev, styles)`
returns true. -/
def retainOnTie (candidate : Content) (cand : Behave) (candLevel : Nat)
    (retained : Content × Behaviour × StyleChain) (retainedLevel : Nat)
    (styles : StyleChain) : Content :=
  if candLevel < retainedLevel then candidate
  else if candLevel = retainedLevel then
    if cand.larger retained styles then candidate else retained.1
  else retained.1

/-- A concrete metadata record used to instantiate the theorems: one declared
field `level` with id 0, one capability with identity 7, a localized name,
and construct/set functions that thread their state. -/
def testData : NativeElementData where
  name := "heading"
  title := "Heading"
  docs := "A section heading."
  keywords := ["section"]
  construct := fun engine args => Except.ok ({ rep := 1 }, engine, args)
  set := fun engine _ => Except.ok ({ rep := 2 }, engine, { items := [] })
  vtable := fun t => if t = 7 then some 100 else none
  field_id := fun n => if n = "level" then some 0 else none
  field_name := fun i => if i = 0 then some "level" else none
  local_name := some (fun _ _ => "heading-localized")
  scope := { rep := 0 }
  params := []

/-- A concrete handle referencing `testData`. -/
def testElem : Element :=
  { ptr := 3, data := testData }

/-- A record agreeing with `testData` everywhere except that its per-kind
lookups claim a mapping for the reserved name "label" and the reserved id 255. -/
def testDataReserved : NativeElementData :=
  { testData with
      field_id := fun n => if n = "label" then some 7 else testData.field_id n
      field_name := fun i => if i = 255 then some "sneaky" else testData.field_name i }

/-- A concrete handle referencing `testDataReserved`. -/
def testElemReserved : Element :=
  { ptr := 4, data := testDataReserved }

/-- A per-kind set function that consumes nothing, for exercising the finish
check: it returns the argument list unchanged. -/
def lazySetData : NativeElementData :=
  { testData with set := fun engine args => Except.ok ({ rep := 9 }, engine, args) }

/-- A concrete handle referencing `lazySetData`. -/
def lazySetElem : Element :=
  { ptr := 5, data := lazySetData }

/-- A second concrete kind, named "list", for exercising the ordering. -/
def testDataB : NativeElementData :=
  { testData with name := "list" }

/-- A concrete handle referencing `testDataB`. -/
def testElemB : Element :=
  { ptr := 6, data := testDataB }

/-- A third concrete kind, named "text", for exercising the ordering. -/
def testDataC : NativeElementData :=
  { testData with name := "text" }

/-- A concrete handle referencing `testDataC`. -/
def testElemC : Element :=
  { ptr := 7, data := testDataC }

/-- C1: two element handles compare equal exactly when they reference the same
metadata record, and — on a registry where a handle's address determines its
record and names are unique across kinds — exactly when their names coincide. -/
theorem element_eq_iff_same_name (a b : Element)
    (hrec : a.ptr = b.ptr → a.data.name = b.data.name)
    (huniq : a.data.name = b.data.name → a.ptr = b.ptr) :
    (Element.beq a b = true ↔ Element.name a = Element.name b) ∧
    (Element.beq a b = true ↔ a.ptr = b.ptr) := by
  constructor
  · constructor
    · intro h
      exact hrec (by simpa [Element.beq] using h)
    · intro h
      simpa [Element.beq] using huniq h
  · simp [Element.beq]

/-- Witness for C1 at the concrete handle `testElem` compared with itself. -/
theorem element_eq_iff_same_name_w :
    (Element.beq testElem testElem = true ↔
      Element.name testElem = Element.name testElem) ∧
    (Element.beq testElem testElem = true ↔ testElem.ptr = testElem.ptr) :=
  element_eq_iff_same_name testElem testElem (fun _ => rfl) (fun _ => rfl)

/-- C2: on every element handle, `field_id "label"` is the reserved 255 and
`field_name 255` is "label", regardless of the kind's own lookups. -/
theorem field_label_reserved (e : Element) :
    Element.field_id e "label" = some 255 ∧
    Element.field_name e 255 = some "label" := by
  constructor
  · simp [Element.field_id]
  · simp [Element.field_name]

/-- C3: `can` and `can_type_id` are true exactly when the kind's vtable lookup
returns a non-absent pointer for the capability's identity, and the result is
determined by the kind's record alone, hence identical across repeated calls. -/
theorem can_iff_vtable_present (e e2 : Element) (c : Capability) (t : TypeId)
    (hsame : e2.data = e.data) :
    (Element.can e c = true ↔ (Element.vtable e c.type_id).isSome = true) ∧
    (Element.can_type_id e t = true ↔ (Element.vtable e t).isSome = true) ∧
    Element.can_type_id e2 t = Element.can_type_id e t := by
  refine ⟨Iff.rfl, Iff.rfl, ?_⟩
  simp [Element.can_type_id, hsame]

/-- Witness for C3 at the concrete handle `testElem`, capability identity 7. -/
theorem can_iff_vtable_present_w :
    (Element.can testElem { type_id := 7 } = true ↔
      (Element.vtable testElem 7).isSome = true) ∧
    (Element.can_type_id testElem 7 = true ↔
      (Element.vtable testElem 7).isSome = true) ∧
    Element.can_type_id testElem 7 = Element.can_type_id testElem 7 :=
  can_iff_vtable_present testElem testElem { type_id := 7 } 7 rfl

/-- C9: `local_name` is absent exactly when the kind's record has no
localized-name function; when the function is present, the result is that
function applied to the language and region, never absent. -/
theorem local_name_absent_iff (e : Element) (lang : Lang) (region : Option Region) :
    (Element.local_name e lang region = none ↔ e.data.local_name = none) ∧
    (∀ f, e.data.local_name = some f →
      Element.local_name e lang region = some (f lang region)) := by
  constructor
  · cases h : e.data.local_name with
    | none => simp [Element.local_name, h]
    | some f => simp [Element.local_name, h]
  · intro f hf
    simp [Element.local_name, hf]

/-- Witness for C9 at the concrete handle `testElem`, whose record has a
localized-name function. -/
theorem local_name_absent_iff_w :
    Element.local_name testElem "de" none = some "heading-localized" :=
  (local_name_absent_iff testElem "de" none).2 (fun _ _ => "heading-localized") rfl

/-- C4: `Element::set` succeeds exactly when the kind's set function succeeds
and the finish check then succeeds; on success it returns the styles the kind's
set function produced, and a failure from either step propagates as the
diagnostic error. -/
theorem set_runs_finish (e : Element) (engine : Engine) (args : Args) :
    (∀ styles engine2 args2,
      e.data.set engine args = Except.ok (styles, engine2, args2) →
      (args2.finish = Except.ok () →
        Element.set e engine args = Except.ok (styles, engine2)) ∧
      (∀ err, args2.finish = Except.error err →
        Element.set e engine args = Except.error err)) ∧
    (∀ err, e.data.set engine args = Except.error err →
      Element.set e engine args = Except.error err) := by
  constructor
  · intro styles engine2 args2 hset
    constructor
    · intro hfin
      simp [Element.set, hset, hfin]
    · intro err hfin
      simp [Element.set, hset, hfin]
  · intro err hset
    simp [Element.set, hset]

/-- Witness for C4: the concrete kind `testElem` consumes every argument, so
its set rule passes the finish check; the concrete kind `lazySetElem` consumes
nothing, so one leftover argument makes its set rule fail. -/
theorem set_runs_finish_w :
    Element.set testElem { state := 0 } { items := [] } =
      Except.ok ({ rep := 2 }, { state := 0 }) ∧
    Element.set lazySetElem { state := 0 }
        { items := [{ argName := none, value := { rep := 5 } }] } =
      Except.error { message := "unexpected argument" } := by
  constructor
  · exact ((set_runs_finish testElem { state := 0 } { items := [] }).1
      { rep := 2 } { state := 0 } { items := [] } rfl).1 rfl
  · exact ((set_runs_finish lazySetElem { state := 0 }
      { items := [{ argName := none, value := { rep := 5 } }] }).1
      { rep := 9 } { state := 0 }
      { items := [{ argName := none, value := { rep := 5 } }] } rfl).2
      { message := "unexpected argument" } rfl

/-- C7: `Element::construct` returns exactly the kind's construct result and
performs no finish check: when the kind's function succeeds leaving unconsumed
arguments, the handle-level call still succeeds with those arguments left in
the list (even though a finish check there would fail), and a diagnostic error
from the kind's function is returned, never a crash. -/
theorem construct_no_finish (e : Element) (engine : Engine) (args : Args) :
    Element.construct e engine args = e.data.construct engine args ∧
    (∀ content engine2 args2,
      e.data.construct engine args = Except.ok (content, engine2, args2) →
      args2.items ≠ [] →
      Element.construct e engine args = Except.ok (content, engine2, args2) ∧
      args2.finish = Except.error { message := "unexpected argument" }) ∧
    (∀ err, e.data.construct engine args = Except.error err →
      Element.construct e engine args = Except.error err) := by
  refine ⟨rfl, ?_, ?_⟩
  · intro content engine2 args2 hc hne
    refine ⟨hc, ?_⟩
    match h : args2.items with
    | [] => exact absurd h hne
    | _ :: _ => simp [Args.finish, h]
  · intro err hc
    simpa [Element.construct] using hc

/-- Witness for C7: the concrete kind `testElem` consumes nothing, so one
supplied argument is left over, yet construction succeeds while the finish
check on the leftover would fail. -/
theorem construct_no_finish_w :
    Element.construct testElem { state := 0 }
        { items := [{ argName := none, value := { rep := 5 } }] } =
      Except.ok ({ rep := 1 }, { state := 0 },
        { items := [{ argName := none, value := { rep := 5 } }] }) ∧
    Args.finish { items := [{ argName := none, value := { rep := 5 } }] } =
      Except.error { message := "unexpected argument" } :=
  (construct_no_finish testElem { state := 0 }
      { items := [{ argName := none, value := { rep := 5 } }] }).2.1
    { rep := 1 } { state := 0 }
    { items := [{ argName := none, value := { rep := 5 } }] } rfl (by simp)

/-- C10: the handle-level lookups never consult the per-kind functions on the
reserved inputs: two handles whose records agree except in what `field_id`
returns for "label" and what `field_name` returns for 255 are indistinguishable
through `Element.field_id` and `Element.field_name` on every input. -/
theorem field_reserved_unreachable (e1 e2 : Element)
    (hid : ∀ n, n ≠ "label" → e1.data.field_id n = e2.data.field_id n)
    (hname : ∀ i, i ≠ 255 → e1.data.field_name i = e2.data.field_name i) :
    (∀ n, Element.field_id e1 n = Element.field_id e2 n) ∧
    (∀ i, Element.field_name e1 i = Element.field_name e2 i) := by
  constructor
  · intro n
    by_cases h : n = "label"
    · simp [Element.field_id, h]
    · simp only [Element.field_id, if_neg h]
      exact hid n h
  · intro i
    by_cases h : i = 255
    · simp [Element.field_name, h]
    · simp only [Element.field_name, if_neg h]
      exact hname i h

/-- Witness for C10: `testElemReserved` differs from `testElem` only in its
per-kind mappings for "label" and 255, and the handle-level lookups agree,
in particular on the reserved inputs themselves. -/
theorem field_reserved_unreachable_w :
    Element.field_id testElem "label" = Element.field_id testElemReserved "label" ∧
    Element.field_name testElem 255 = Element.field_name testElemReserved 255 :=
  ⟨(field_reserved_unreachable testElem testElemReserved
      (fun n h => by simp [testElemReserved, testDataReserved, testElem, h])
      (fun i h => by simp [testElemReserved, testDataReserved, testElem, h])).1 "label",
   (field_reserved_unreachable testElem testElemReserved
      (fun n h => by simp [testElemReserved, testDataReserved, testElem, h])
      (fun i h => by simp [testElemReserved, testDataReserved, testElem, h])).2 255⟩

/-- C6: when the kind's own field lookups are mutually inverse and never
produce the reserved name "label", the handle-level lookups are inverse too:
whenever `field_name i` yields a name, `field_id` maps it back to `i`, the
round-trip `field_name (field_id (field_name i))` is the identity on defined
ids, and the reserved pair `(255, "label")` round-trips as well. -/
theorem field_lookup_roundtrip (e : Element)
    (hinv : ∀ i n, e.data.field_name i = some n → e.data.field_id n = some i)
    (hnl : ∀ i, e.data.field_name i ≠ some "label") :
    (∀ i n, Element.field_name e i = some n → Element.field_id e n = some i) ∧
    (∀ i, (Element.field_name e i).bind
        (fun n => (Element.field_id e n).bind
          (fun j => Element.field_name e j)) = Element.field_name e i) ∧
    (Element.field_name e 255 = some "label" ∧
      Element.field_id e "label" = some 255) := by
  have key : ∀ i n, Element.field_name e i = some n → Element.field_id e n = some i := by
    intro i n h
    by_cases hi : i = 255
    · subst hi
      simp [Element.field_name] at h
      subst h
      simp [Element.field_id]
    · simp only [Element.field_name, if_neg hi] at h
      have hn : n ≠ "label" := by
        intro hn
        exact hnl i (hn ▸ h)
      simp only [Element.field_id, if_neg hn]
      exact hinv i n h
  refine ⟨key, ?_, ?_, ?_⟩
  · intro i
    cases h : Element.field_name e i with
    | none => rfl
    | some n =>
      simp [key i n h, h]
  · simp [Element.field_name]
  · simp [Element.field_id]

/-- Witness for C6 at the concrete handle `testElem`, whose single declared
field is `level` with id 0: the round-trip holds at id 0 and at the reserved
id 255. -/
theorem field_lookup_roundtrip_w :
    Element.field_id testElem "level" = some 0 ∧
    Element.field_name testElem 255 = some "label" := by
  have h := field_lookup_roundtrip testElem
    (by
      intro i n h
      by_cases hi : i = 0
      · subst hi
        simp [testElem, testData] at h
        subst h
        simp [testElem, testData]
      · simp [testElem, testData, hi] at h)
    (by
      intro i
      by_cases hi : i = 0
      · subst hi
        simp [testElem, testData]
      · simp [testElem, testData, hi])
  exact ⟨h.1 0 "level" (by simp [testElem, testData, Element.field_name]), h.2.2.1⟩

/-- C8: the default body of `Behave::larger` returns false for every previously
retained weak element and every style chain, so a kind that keeps the default
never replaces the currently retained weak element on a level tie: the first
element seen wins. -/
theorem default_larger_never_replaces (b : Behaviour)
    (prev : Content × Behaviour × StyleChain) (styles : StyleChain) :
    (Behave.mkDefault b).larger prev styles = false ∧
    (∀ (candidate : Content) (candLevel retainedLevel : Nat)
        (retained : Content × Behaviour × StyleChain),
      candLevel = retainedLevel →
      retainOnTie candidate (Behave.mkDefault b) candLevel retained retainedLevel
        styles = retained.1) := by
  constructor
  · rfl
  · intro candidate candLevel retainedLevel retained htie
    subst htie
    simp [retainOnTie, Behave.mkDefault, defaultLarger]

/-- Witness for C8: with the stream scenario levels `Weak(2)` against a
retained `Weak(2)`, the default policy keeps the first-seen element. -/
theorem default_larger_never_replaces_w :
    (Behave.mkDefault (Behaviour.Weak 2)).larger
      ({ rep := 10 }, Behaviour.Weak 2, { rep := 0 }) { rep := 0 } = false ∧
    retainOnTie { rep := 11 } (Behave.mkDefault (Behaviour.Weak 2)) 2
      ({ rep := 10 }, Behaviour.Weak 2, { rep := 0 }) 2 { rep := 0 } =
      { rep := 10 } := by
  have h := default_larger_never_replaces (Behaviour.Weak 2)
    ({ rep := 10 }, Behaviour.Weak 2, { rep := 0 }) { rep := 0 }
  exact ⟨h.1, h.2 { rep := 11 } 2 2
    ({ rep := 10 }, Behaviour.Weak 2, { rep := 0 }) rfl⟩

/-- Characters with equal code points are equal. -/
theorem char_toNat_inj {a b : Char} (h : a.toNat = b.toNat) : a = b :=
  Char.eq_of_val_eq (UInt32.toNat.inj h)

/-- Swapping the arguments of `lexCmp` swaps the resulting ordering. -/
theorem lexCmp_swap (xs ys : List Char) : lexCmp ys xs = (lexCmp xs ys).swap := by
  induction xs generalizing ys with
  | nil =>
    cases ys with
    | nil => rfl
    | cons b ys => rfl
  | cons a xs ih =>
    cases ys with
    | nil => rfl
    | cons b ys =>
      simp only [lexCmp]
      split_ifs <;> first | rfl | omega | exact ih ys

/-- Splitting a head-to-head `lexCmp` that came out strictly less. -/
theorem lexCmp_cons_lt {a b : Char} {xs ys : List Char}
    (h : lexCmp (a :: xs) (b :: ys) = Ordering.lt) :
    a.toNat < b.toNat ∨ (a.toNat = b.toNat ∧ lexCmp xs ys = Ordering.lt) := by
  simp only [lexCmp] at h
  by_cases h1 : a.toNat < b.toNat
  · exact Or.inl h1
  · by_cases h2 : b.toNat < a.toNat
    · rw [if_neg h1, if_pos h2] at h
      exact absurd h (by decide)
    · rw [if_neg h1, if_neg h2] at h
      exact Or.inr ⟨by omega, h⟩

/-- `lexCmp` is transitive in its strictly-less outcome. -/
theorem lexCmp_lt_trans {xs ys zs : List Char} (h1 : lexCmp xs ys = Ordering.lt)
    (h2 : lexCmp ys zs = Ordering.lt) : lexCmp xs zs = Ordering.lt := by
  induction xs generalizing ys zs with
  | nil =>
    cases zs with
    | nil =>
      cases ys with
      | nil => simp [lexCmp] at h1
      | cons b ys => simp [lexCmp] at h2
    | cons c zs => simp [lexCmp]
  | cons a xs ih =>
    cases ys with
    | nil => simp [lexCmp] at h1
    | cons b ys =>
      cases zs with
      | nil => simp [lexCmp] at h2
      | cons c zs =>
        rcases lexCmp_cons_lt h1 with hab | ⟨hab, h1x⟩ <;>
          rcases lexCmp_cons_lt h2 with hbc | ⟨hbc, h2x⟩
        · simp [lexCmp, show a.toNat < c.toNat by omega]
        · simp [lexCmp, show a.toNat < c.toNat by omega]
        · simp [lexCmp, show a.toNat < c.toNat by omega]
        · have hx := ih h1x h2x
          simp [lexCmp, show ¬ a.toNat < c.toNat by omega,
            show ¬ c.toNat < a.toNat by omega, hx]

/-- `lexCmp` answers `eq` exactly on equal lists. -/
theorem lexCmp_eq_iff (xs ys : List Char) :
    lexCmp xs ys = Ordering.eq ↔ xs = ys := by
  induction xs generalizing ys with
  | nil =>
    cases ys with
    | nil => simp [lexCmp]
    | cons b ys => simp [lexCmp]
  | cons a xs ih =>
    cases ys with
    | nil => simp [lexCmp]
    | cons b ys =>
      simp only [lexCmp]
      by_cases h1 : a.toNat < b.toNat
      · rw [if_pos h1]
        constructor
        · intro h
          exact absurd h (by decide)
        · intro h
          injection h with hab hxs
          subst hab
          omega
      · by_cases h2 : b.toNat < a.toNat
        · rw [if_neg h1, if_pos h2]
          constructor
          · intro h
            exact absurd h (by decide)
          · intro h
            injection h with hab hxs
            subst hab
            omega
        · rw [if_neg h1, if_neg h2]
          have hab : a = b := char_toNat_inj (by omega)
          subst hab
          constructor
          · intro h
            exact congrArg (a :: ·) ((ih ys).mp h)
          · intro h
            have : xs = ys := by
              injection h
            exact (ih ys).mpr this

/-- C5: the element ordering compares the names lexicographically, the partial
comparison always answers `some` of the total one, and the order is a strict
total order: it reverses under swapping the arguments (antisymmetry of the
comparison), answers `eq` exactly on equal names, and its strict outcome is
transitive. -/
theorem element_cmp_total_order (a b c : Element) :
    Element.cmp a b = lexCmp (Element.name a).data (Element.name b).data ∧
    Element.partialCmp a b = some (Element.cmp a b) ∧
    Element.cmp b a = (Element.cmp a b).swap ∧
    (Element.cmp a b = Ordering.eq ↔ Element.name a = Element.name b) ∧
    (Element.cmp a b = Ordering.lt → Element.cmp b c = Ordering.lt →
      Element.cmp a c = Ordering.lt) := by
  refine ⟨rfl, rfl, lexCmp_swap _ _, ?_, ?_⟩
  · constructor
    · intro h
      have hd := (lexCmp_eq_iff _ _).mp h
      cases hA : Element.name a with
      | mk dataA =>
        cases hB : Element.name b with
        | mk dataB =>
          rw [hA, hB] at hd
          exact congrArg String.mk hd
    · intro h
      exact (lexCmp_eq_iff _ _).mpr (congrArg String.data h)
  · intro h1 h2
    exact lexCmp_lt_trans h1 h2

/-- Witness for C5 at the concrete handles named "heading", "list", "text":
the strict comparisons chain transitively. -/
theorem element_cmp_total_order_w :
    Element.cmp testElem testElemC = Ordering.lt :=
  (element_cmp_total_order testElem testElemB testElemC).2.2.2.2
    (by decide) (by decide)
